import Mathlib

/-!
Verification of the LOGGR field-visit logging application.

The development shallowly embeds the application's core logic:
the Visit data model (types.ts), the mutation handlers of the App
component (handleSaveVisit, handleDeleteVisit, handleToggleRevisitSuccess),
the query/filter engine of VisitList (filteredVisits), the import flow
(handleFileChange), the form submission guard (VisitForm.handleSubmit),
and the navigation controller (view state plus renderContent).

Modelling conventions:
- ISO-8601 datetime strings are represented by their epoch value as an
  integer: the source always compares them through new Date(x).getTime(),
  and for well-formed ISO strings that map is monotone, so an Int field
  is a faithful carrier for every ordering/equality fact used here.
- JavaScript string lowercasing and substring search are modelled on the
  character list of the string (the source data is ASCII-range text).
- JSON.parse output is modelled by an explicit Json inductive; JavaScript
  truthiness of a field access is modelled by jsTruthy.
- Nondeterministic inputs of a handler (the generated id, the current
  clock value, the answer of a window.confirm dialog) are passed as
  explicit parameters.
-/

inductive VisitType where
  | followUp
  | crawlback
  | call
deriving DecidableEq, Repr

/-- The Visit entity of types.ts.  Optional fields are Option; the two
nullable numeric fields are Option Int (their values are never computed
with, only stored and copied). -/
structure Visit where
  id : String
  businessName : String
  timestamp : Int
  lastModified : Option Int := none
  contactPerson : String := ""
  ownerName : String := ""
  ownerContact : Option String := none
  numberOfPhones : Option Int := none
  estimatedMonthlyPayment : Option Int := none
  currentProvider : String := ""
  address : String := ""
  notes : String := ""
  visitType : VisitType := .followUp
  revisitDate : Option Int := none
  isRevisitSuccessful : Option Bool := none
deriving DecidableEq, Repr

inductive SortBy where
  | newest
  | oldest
  | lastModified
deriving DecidableEq, Repr

inductive VisitTypeFilter where
  | all
  | only (t : VisitType)
deriving DecidableEq, Repr

/-- The Filters type of FilterModal.tsx. -/
structure Filters where
  sortBy : SortBy
  visitType : VisitTypeFilter
  providers : List String
deriving DecidableEq, Repr

/-- JavaScript toLowerCase, modelled on the character list of the string. -/
def jsToLower (s : String) : List Char :=
  s.data.map Char.toLower

/-- JavaScript String.prototype.includes: substring containment. -/
def jsIncludes (hay needle : List Char) : Bool :=
  decide (needle <:+: hay)

/-- The visit-type early return of the filter body:
activeFilters.visitType !== 'all' && visit.visitType !== activeFilters.visitType. -/
def visitTypeFails (ft : VisitTypeFilter) (vt : VisitType) : Bool :=
  match ft with
  | .all => false
  | .only t => vt != t

/-- The filter predicate of filteredVisits in VisitList.tsx (the three
early-return checks; a visit is kept when none of them fires). -/
def visitMatches (searchQuery : String) (f : Filters) (visit : Visit) : Bool :=
  let lowerCaseQuery := jsToLower searchQuery
  if visitTypeFails f.visitType visit.visitType then false
  else if decide (0 < f.providers.length) && !(f.providers.contains visit.currentProvider) then
    false
  else if (searchQuery != "") && !(jsIncludes (jsToLower visit.businessName) lowerCaseQuery
      || jsIncludes (jsToLower visit.contactPerson) lowerCaseQuery
      || jsIncludes (jsToLower visit.address) lowerCaseQuery) then
    false
  else true

/-- The sort key used by the lastModified branch of the comparator:
new Date(a.lastModified || a.timestamp).getTime(). -/
def lastModifiedKey (v : Visit) : Int :=
  v.lastModified.getD v.timestamp

/-- The comparator of filteredVisits, as the boolean relation
"a may be placed before b": a JS comparator c places a before b exactly
when c(a,b) <= 0, and c returns timeB - timeA for the two descending
branches and timeA - timeB for oldest. -/
def visitLe (sortBy : SortBy) (a b : Visit) : Bool :=
  match sortBy with
  | .lastModified => decide (lastModifiedKey b ≤ lastModifiedKey a)
  | .newest => decide (b.timestamp ≤ a.timestamp)
  | .oldest => decide (a.timestamp ≤ b.timestamp)

/-- filteredVisits of VisitList.tsx: filter, then stable sort by the
comparator (JavaScript Array.prototype.sort is stable per ES2019;
List.mergeSort is the stable sort of the embedding). -/
def filteredVisits (visits : List Visit) (searchQuery : String) (f : Filters) : List Visit :=
  (visits.filter (visitMatches searchQuery f)).mergeSort (visitLe f.sortBy)

/-- The spec's wording of the free-text match: the query is,
case-insensitively, a substring of the field. -/
def ciSubstringOf (q s : String) : Prop :=
  jsToLower q <:+: jsToLower s

/-- The spec's wording of the retention rule of the Query/Filter Engine
(section 4.2, step 1); stated from the spec to be compared with the
code-shaped predicate visitMatches. -/
def specRetains (searchQuery : String) (f : Filters) (v : Visit) : Prop :=
  (f.visitType = .all ∨ f.visitType = .only v.visitType) ∧
  (f.providers = [] ∨ v.currentProvider ∈ f.providers) ∧
  (searchQuery = "" ∨ ciSubstringOf searchQuery v.businessName ∨
    ciSubstringOf searchQuery v.contactPerson ∨ ciSubstringOf searchQuery v.address)

theorem visitMatches_eq_true_iff (q : String) (f : Filters) (v : Visit) :
    visitMatches q f v = true ↔ specRetains q f v := by
  unfold visitMatches specRetains ciSubstringOf jsIncludes
  cases hft : f.visitType with
  | all =>
    cases hp : f.providers with
    | nil => by_cases hq : q = "" <;> simp [visitTypeFails, hq, or_assoc]
    | cons p ps =>
      by_cases hq : q = "" <;>
        by_cases hmem : v.currentProvider ∈ p :: ps <;>
          simp [visitTypeFails, hq, hmem, List.contains, List.elem_iff, or_assoc]
  | only t =>
    by_cases hvt : v.visitType = t
    · cases hp : f.providers with
      | nil => by_cases hq : q = "" <;> simp [visitTypeFails, hvt, hq, or_assoc]
      | cons p ps =>
        by_cases hq : q = "" <;>
          by_cases hmem : v.currentProvider ∈ p :: ps <;>
            simp [visitTypeFails, hvt, hq, hmem, List.contains, List.elem_iff, or_assoc]
    · simp [visitTypeFails, hvt, Ne.symm hvt]

/-- The key a visit is compared by under each sortBy value. -/
def sortKey (s : SortBy) (v : Visit) : Int :=
  match s with
  | .newest => v.timestamp
  | .oldest => v.timestamp
  | .lastModified => lastModifiedKey v

theorem visitLe_trans (s : SortBy) : ∀ a b c : Visit,
    visitLe s a b = true → visitLe s b c = true → visitLe s a c = true := by
  intro a b c hab hbc
  cases s <;> simp [visitLe] at hab hbc ⊢ <;> omega

theorem visitLe_total (s : SortBy) : ∀ a b : Visit,
    (visitLe s a b || visitLe s b a) = true := by
  intro a b
  cases s <;> simp [visitLe] <;> omega

theorem visitLe_of_sortKey_eq (s : SortBy) (a b : Visit)
    (h : sortKey s a = sortKey s b) : visitLe s a b = true := by
  cases s <;> simp [visitLe, sortKey] at h ⊢ <;> omega

/-- C2: a record is in the output of the Query/Filter Engine exactly when
it is in the input collection and satisfies the spec's retention rule
(visit-type filter, provider set, case-insensitive free-text query); in
particular the result is a subset of the input. -/
theorem filteredVisits_mem_iff (visits : List Visit) (q : String) (f : Filters) :
    ∀ v : Visit, v ∈ filteredVisits visits q f ↔ (v ∈ visits ∧ specRetains q f v) := by
  intro v
  unfold filteredVisits
  rw [List.mem_mergeSort, List.mem_filter, visitMatches_eq_true_iff]

/-- C3: the Query/Filter Engine orders the retained records descending by
timestamp for sortBy newest, ascending by timestamp for oldest, and
descending by lastModified-else-timestamp for lastModified; two retained
records with equal sort keys keep their relative order from the original
collection (stable sort). -/
theorem filteredVisits_sorted_stable (visits : List Visit) (q : String) (f : Filters) :
    (f.sortBy = .newest →
      (filteredVisits visits q f).Pairwise (fun a b => b.timestamp ≤ a.timestamp)) ∧
    (f.sortBy = .oldest →
      (filteredVisits visits q f).Pairwise (fun a b => a.timestamp ≤ b.timestamp)) ∧
    (f.sortBy = .lastModified →
      (filteredVisits visits q f).Pairwise (fun a b => lastModifiedKey b ≤ lastModifiedKey a)) ∧
    (∀ a b : Visit, sortKey f.sortBy a = sortKey f.sortBy b →
      [a, b].Sublist visits → visitMatches q f a = true → visitMatches q f b = true →
      [a, b].Sublist (filteredVisits visits q f)) := by
  have hsorted := List.sorted_mergeSort
    (visitLe_trans f.sortBy) (visitLe_total f.sortBy) (visits.filter (visitMatches q f))
  refine ⟨?_, ?_, ?_, ?_⟩
  · intro h
    refine hsorted.imp ?_
    intro a b hab
    rw [h] at hab
    simpa [visitLe] using hab
  · intro h
    refine hsorted.imp ?_
    intro a b hab
    rw [h] at hab
    simpa [visitLe] using hab
  · intro h
    refine hsorted.imp ?_
    intro a b hab
    rw [h] at hab
    simpa [visitLe] using hab
  · intro a b hk hsub hma hmb
    have hfil : [a, b].Sublist (visits.filter (visitMatches q f)) := by
      have := hsub.filter (visitMatches q f)
      simpa [List.filter, hma, hmb] using this
    exact List.sublist_mergeSort (visitLe_trans f.sortBy) (visitLe_total f.sortBy)
      (List.pairwise_pair.mpr (visitLe_of_sortKey_eq f.sortBy a b hk)) hfil

/-- Witness for C3 at concrete inputs: two visits with timestamps 1 < 2,
exercising all three sort orders and the stability clause on a tie. -/
theorem filteredVisits_sorted_stable_witness :
    (filteredVisits
        [{ id := "a", businessName := "A", timestamp := 1 },
         { id := "b", businessName := "B", timestamp := 2 }] ""
        { sortBy := .newest, visitType := .all, providers := [] }).Pairwise
      (fun a b => b.timestamp ≤ a.timestamp) ∧
    (filteredVisits
        [{ id := "a", businessName := "A", timestamp := 1 },
         { id := "b", businessName := "B", timestamp := 2 }] ""
        { sortBy := .oldest, visitType := .all, providers := [] }).Pairwise
      (fun a b => a.timestamp ≤ b.timestamp) ∧
    (filteredVisits
        [{ id := "a", businessName := "A", timestamp := 1 },
         { id := "b", businessName := "B", timestamp := 2 }] ""
        { sortBy := .lastModified, visitType := .all, providers := [] }).Pairwise
      (fun a b => lastModifiedKey b ≤ lastModifiedKey a) ∧
    [{ id := "a", businessName := "A", timestamp := 5 },
     { id := "b", businessName := "B", timestamp := 5 }].Sublist
      (filteredVisits
        [{ id := "a", businessName := "A", timestamp := 5 },
         { id := "b", businessName := "B", timestamp := 5 }] ""
        { sortBy := .newest, visitType := .all, providers := [] }) :=
  ⟨(filteredVisits_sorted_stable _ "" _).1 rfl,
   (filteredVisits_sorted_stable _ "" _).2.1 rfl,
   (filteredVisits_sorted_stable _ "" _).2.2.1 rfl,
   (filteredVisits_sorted_stable _ "" _).2.2.2 _ _ (by decide)
     (List.Sublist.refl _) (by decide) (by decide)⟩

/-- The payload VisitForm.handleSubmit passes to onSave: every Visit field
except timestamp, lastModified and isRevisitSuccessful (the form state
never carries the flag), with id set from initialVisit (absent when
creating).  ownerContact is always a plain string in the form state; the
two numeric fields are null when the input is blank; revisitDate is
undefined when the input is blank. -/
structure VisitDraft where
  id : Option String := none
  businessName : String := ""
  contactPerson : String := ""
  ownerName : String := ""
  ownerContact : String := ""
  numberOfPhones : Option Int := none
  estimatedMonthlyPayment : Option Int := none
  currentProvider : String := ""
  address : String := ""
  notes : String := ""
  visitType : VisitType := .followUp
  revisitDate : Option Int := none
deriving DecidableEq, Repr

/-- The editing branch of handleSaveVisit on the matching record:
spread of v, then of the draft (which carries every field but timestamp,
lastModified and isRevisitSuccessful), then timestamp forced back to the
original and lastModified set to now. -/
def mergeDraft (v : Visit) (draft : VisitDraft) (i : String) (now : Int) : Visit :=
  { id := i
    businessName := draft.businessName
    timestamp := v.timestamp
    lastModified := some now
    contactPerson := draft.contactPerson
    ownerName := draft.ownerName
    ownerContact := some draft.ownerContact
    numberOfPhones := draft.numberOfPhones
    estimatedMonthlyPayment := draft.estimatedMonthlyPayment
    currentProvider := draft.currentProvider
    address := draft.address
    notes := draft.notes
    visitType := draft.visitType
    revisitDate := draft.revisitDate
    isRevisitSuccessful := v.isRevisitSuccessful }

/-- The creating branch of handleSaveVisit: spread of the draft, with a
freshly generated id and the current time as timestamp; lastModified and
isRevisitSuccessful are absent. -/
def makeVisit (draft : VisitDraft) (newId : String) (now : Int) : Visit :=
  { id := newId
    businessName := draft.businessName
    timestamp := now
    lastModified := none
    contactPerson := draft.contactPerson
    ownerName := draft.ownerName
    ownerContact := some draft.ownerContact
    numberOfPhones := draft.numberOfPhones
    estimatedMonthlyPayment := draft.estimatedMonthlyPayment
    currentProvider := draft.currentProvider
    address := draft.address
    notes := draft.notes
    visitType := draft.visitType
    revisitDate := draft.revisitDate
    isRevisitSuccessful := none }

/-- handleSaveVisit of the App component.  The generated id and the two
clock reads collapse to the parameters newId and now. -/
def handleSaveVisit (visits : List Visit) (draft : VisitDraft) (newId : String)
    (now : Int) : List Visit :=
  match draft.id with
  | some i => visits.map (fun v => if v.id = i then mergeDraft v draft i now else v)
  | none => makeVisit draft newId now :: visits

/-- VisitForm.handleSubmit composed with handleSaveVisit: the save is
rejected (alert, no onSave call, collection untouched) when businessName
is falsy, i.e. the empty string. -/
def handleSubmit (visits : List Visit) (draft : VisitDraft) (newId : String)
    (now : Int) : Option (List Visit) :=
  if draft.businessName = "" then none
  else some (handleSaveVisit visits draft newId now)

/-- The collection change of handleDeleteVisit (the confirmed branch):
prevVisits.filter(v => v.id !== id). -/
def handleDeleteVisit (visits : List Visit) (i : String) : List Visit :=
  visits.filter (fun v => v.id != i)

/-- handleToggleRevisitSuccess of the App component: on the matching
record, JavaScript negation of isRevisitSuccessful (undefined negates to
true) and lastModified set to now. -/
def handleToggleRevisitSuccess (visits : List Visit) (i : String) (now : Int) :
    List Visit :=
  visits.map (fun v =>
    if v.id = i then
      { v with isRevisitSuccessful := some (!(v.isRevisitSuccessful.getD false))
               lastModified := some now }
    else v)

/-- C1 counterexample: a concrete collection holding only the record with
id "a", and an update (a draft carrying id "b") targeting the absent id
"b".  The save silently returns the collection unchanged; no error of any
kind is produced (handleSaveVisit is total and has no failure outcome),
refuting the claim that such an update fails with a NotFoundError. -/
theorem update_absent_id_cex :
    (∀ v ∈ [({ id := "a", businessName := "Acme", timestamp := 0 } : Visit)], v.id ≠ "b") ∧
    handleSaveVisit [{ id := "a", businessName := "Acme", timestamp := 0 }]
        { id := some "b", businessName := "Changed" } "unused" 5 =
      [{ id := "a", businessName := "Acme", timestamp := 0 }] := by
  constructor
  · decide
  · rfl

/-- C1 amended: an update (save of a draft carrying an id) targeting an id
that matches no record in the collection silently leaves the collection
unchanged; no NotFoundError is raised, so not-found on update is a no-op
exactly like delete and toggle. -/
theorem update_absent_id_noop (visits : List Visit) (draft : VisitDraft) (i : String)
    (newId : String) (now : Int) (hid : draft.id = some i)
    (habs : ∀ v ∈ visits, v.id ≠ i) :
    handleSaveVisit visits draft newId now = visits := by
  unfold handleSaveVisit
  rw [hid]
  have : ∀ v ∈ visits, (if v.id = i then mergeDraft v draft i now else v) = v := by
    intro v hv
    simp [habs v hv]
  calc visits.map (fun v => if v.id = i then mergeDraft v draft i now else v)
      = visits.map id := List.map_congr_left (by simpa using this)
    _ = visits := List.map_id visits

/-- Witness for the amended C1 at a concrete input. -/
theorem update_absent_id_noop_witness :
    handleSaveVisit [{ id := "a", businessName := "Acme", timestamp := 0 }]
        { id := some "zzz", businessName := "Changed" } "unused" 7 =
      [{ id := "a", businessName := "Acme", timestamp := 0 }] :=
  update_absent_id_noop _ _ "zzz" "unused" 7 rfl (by decide)

/-- C5: creating (a draft with no id) is rejected exactly when businessName
is empty, leaving the collection untouched; on success the new record is
prepended, has the fresh id and the current timestamp, has no
lastModified, copies every draft field, a lookup by the returned id finds
it, and when the generated id is fresh it is unique in the collection. -/
theorem create_spec (visits : List Visit) (draft : VisitDraft) (newId : String)
    (now : Int) (hid : draft.id = none) :
    (handleSubmit visits draft newId now = none ↔ draft.businessName = "") ∧
    (draft.businessName ≠ "" →
      handleSubmit visits draft newId now = some (makeVisit draft newId now :: visits)) ∧
    ((makeVisit draft newId now).id = newId ∧
      (makeVisit draft newId now).timestamp = now ∧
      (makeVisit draft newId now).lastModified = none ∧
      (makeVisit draft newId now).isRevisitSuccessful = none ∧
      (makeVisit draft newId now).businessName = draft.businessName ∧
      (makeVisit draft newId now).contactPerson = draft.contactPerson ∧
      (makeVisit draft newId now).ownerName = draft.ownerName ∧
      (makeVisit draft newId now).ownerContact = some draft.ownerContact ∧
      (makeVisit draft newId now).numberOfPhones = draft.numberOfPhones ∧
      (makeVisit draft newId now).estimatedMonthlyPayment = draft.estimatedMonthlyPayment ∧
      (makeVisit draft newId now).currentProvider = draft.currentProvider ∧
      (makeVisit draft newId now).address = draft.address ∧
      (makeVisit draft newId now).notes = draft.notes ∧
      (makeVisit draft newId now).visitType = draft.visitType ∧
      (makeVisit draft newId now).revisitDate = draft.revisitDate) ∧
    (makeVisit draft newId now :: visits).find? (fun v => v.id == newId) =
      some (makeVisit draft newId now) ∧
    ((∀ v ∈ visits, v.id ≠ newId) →
      (makeVisit draft newId now :: visits).countP (fun v => v.id == newId) = 1) := by
  refine ⟨?_, ?_, ?_, ?_, ?_⟩
  · unfold handleSubmit
    by_cases h : draft.businessName = "" <;> simp [h]
  · intro h
    unfold handleSubmit handleSaveVisit
    rw [hid]
    simp [h]
  · exact ⟨rfl, rfl, rfl, rfl, rfl, rfl, rfl, rfl, rfl, rfl, rfl, rfl, rfl, rfl, rfl⟩
  · rw [List.find?_cons_of_pos]
    simp [makeVisit]
  · intro hfresh
    rw [List.countP_cons_of_pos _ _ (by simp [makeVisit])]
    have : visits.countP (fun v => v.id == newId) = 0 := by
      rw [List.countP_eq_zero]
      intro v hv
      simpa using hfresh v hv
    omega

/-- Witness for C5: a rejected empty-name draft, and a successful create
of a draft named Acme, looked up by the fresh id afterwards. -/
theorem create_spec_witness :
    handleSubmit [] { businessName := "" } "n1" 3 = none ∧
    handleSubmit [] { businessName := "Acme" } "n1" 3 =
      some [makeVisit { businessName := "Acme" } "n1" 3] ∧
    (makeVisit ({ businessName := "Acme" } : VisitDraft) "n1" 3).lastModified = none ∧
    [makeVisit ({ businessName := "Acme" } : VisitDraft) "n1" 3].find?
      (fun v => v.id == "n1") = some (makeVisit { businessName := "Acme" } "n1" 3) ∧
    [makeVisit ({ businessName := "Acme" } : VisitDraft) "n1" 3].countP
      (fun v => v.id == "n1") = 1 := by
  obtain ⟨hA, hB, hC, hD, hE⟩ :=
    create_spec [] ({ businessName := "Acme" } : VisitDraft) "n1" 3 rfl
  exact ⟨(create_spec [] { businessName := "" } "n1" 3 rfl).1.mpr rfl,
    hB (by decide), hC.2.2.1, hD, hE (by simp)⟩

/-- The per-record effect of a successful update: a record with another id
is untouched; the record with the target id keeps id and timestamp, gets
lastModified set to now, takes every draft field, and keeps its
isRevisitSuccessful flag (the form payload never carries it). -/
def UpdatedBy (draft : VisitDraft) (i : String) (now : Int) (v u : Visit) : Prop :=
  (v.id ≠ i → u = v) ∧
  (v.id = i →
    u.id = v.id ∧ u.timestamp = v.timestamp ∧ u.lastModified = some now ∧
    u.businessName = draft.businessName ∧ u.contactPerson = draft.contactPerson ∧
    u.ownerName = draft.ownerName ∧ u.ownerContact = some draft.ownerContact ∧
    u.numberOfPhones = draft.numberOfPhones ∧
    u.estimatedMonthlyPayment = draft.estimatedMonthlyPayment ∧
    u.currentProvider = draft.currentProvider ∧ u.address = draft.address ∧
    u.notes = draft.notes ∧ u.visitType = draft.visitType ∧
    u.revisitDate = draft.revisitDate ∧
    u.isRevisitSuccessful = v.isRevisitSuccessful)

/-- C6: update keeps id and timestamp of the matching record, merges the
draft fields over its previous values, sets lastModified to now, and
leaves every other record unchanged; under a monotone clock the new
lastModified is at least the record's timestamp and any previous
lastModified. -/
theorem update_existing_spec (visits : List Visit) (draft : VisitDraft) (i : String)
    (newId : String) (now : Int) (hid : draft.id = some i) :
    List.Forall₂ (UpdatedBy draft i now) visits (handleSaveVisit visits draft newId now) ∧
    (∀ v ∈ visits, v.id = i → v.timestamp ≤ now →
      (∀ p, v.lastModified = some p → p ≤ now) →
      ∃ u ∈ handleSaveVisit visits draft newId now,
        u.timestamp = v.timestamp ∧ u.lastModified = some now ∧
        (∀ t, u.lastModified = some t →
          v.timestamp ≤ t ∧ ∀ p, v.lastModified = some p → p ≤ t)) := by
  constructor
  · unfold handleSaveVisit
    rw [hid, List.forall₂_map_right_iff, List.forall₂_same]
    intro v hv
    by_cases h : v.id = i
    · constructor
      · intro hne
        exact absurd h hne
      · intro _
        simp [h, mergeDraft, UpdatedBy]
    · simp [h, UpdatedBy]
  · intro v hv hvi hts hlm
    refine ⟨mergeDraft v draft i now, ?_, rfl, rfl, ?_⟩
    · unfold handleSaveVisit
      rw [hid]
      exact List.mem_map.mpr ⟨v, hv, by simp [hvi]⟩
    · intro t ht
      have hteq : t = now := by
        simpa [mergeDraft] using ht.symm
      subst hteq
      exact ⟨hts, hlm⟩

/-- Witness for C6 at a concrete input: one record with id "a" and
timestamp 2, updated by a draft at time 10. -/
theorem update_existing_spec_witness :
    List.Forall₂
      (UpdatedBy { id := some "a", businessName := "New", notes := "edited" } "a" 10)
      [{ id := "a", businessName := "Old", timestamp := 2 }]
      (handleSaveVisit [{ id := "a", businessName := "Old", timestamp := 2 }]
        { id := some "a", businessName := "New", notes := "edited" } "u" 10) :=
  (update_existing_spec [{ id := "a", businessName := "Old", timestamp := 2 }]
    { id := some "a", businessName := "New", notes := "edited" } "a" "u" 10 rfl).1

/-- C8: delete removes exactly the records with the given id, keeps all
other records unchanged and in order, is a silent no-op when no record
matches, and is idempotent. -/
theorem delete_spec (visits : List Visit) (i : String) :
    (∀ v : Visit, v ∈ handleDeleteVisit visits i ↔ (v ∈ visits ∧ v.id ≠ i)) ∧
    (handleDeleteVisit visits i).Sublist visits ∧
    ((∀ v ∈ visits, v.id ≠ i) → handleDeleteVisit visits i = visits) ∧
    handleDeleteVisit (handleDeleteVisit visits i) i = handleDeleteVisit visits i := by
  refine ⟨?_, ?_, ?_, ?_⟩
  · intro v
    simp [handleDeleteVisit, List.mem_filter]
  · exact List.filter_sublist visits
  · intro habs
    unfold handleDeleteVisit
    rw [List.filter_eq_self]
    intro v hv
    simpa using habs v hv
  · unfold handleDeleteVisit
    rw [List.filter_eq_self]
    intro v hv
    exact (List.mem_filter.mp hv).2

/-- Witness for C8 at a concrete input: deleting the absent id "z" from a
one-record collection is a no-op, and deleting "a" twice equals deleting
it once. -/
theorem delete_spec_witness :
    handleDeleteVisit [{ id := "a", businessName := "Acme", timestamp := 0 }] "z" =
      [{ id := "a", businessName := "Acme", timestamp := 0 }] ∧
    handleDeleteVisit
        (handleDeleteVisit [{ id := "a", businessName := "Acme", timestamp := 0 }] "a") "a" =
      handleDeleteVisit [{ id := "a", businessName := "Acme", timestamp := 0 }] "a" :=
  ⟨(delete_spec [{ id := "a", businessName := "Acme", timestamp := 0 }] "z").2.2.1
      (by decide),
   (delete_spec [{ id := "a", businessName := "Acme", timestamp := 0 }] "a").2.2.2⟩

/-- The per-record effect of one toggle: a record with another id is
untouched; the record with the target id has its isRevisitSuccessful
flipped (absent treated as false before flipping) and lastModified set to
now, all other fields unchanged. -/
def ToggledBy (i : String) (now : Int) (v u : Visit) : Prop :=
  (v.id ≠ i → u = v) ∧
  (v.id = i →
    u.isRevisitSuccessful = some (!(v.isRevisitSuccessful.getD false)) ∧
    u.lastModified = some now ∧
    u.id = v.id ∧ u.timestamp = v.timestamp ∧ u.businessName = v.businessName)

/-- The per-record effect of two toggles: a record with another id is
untouched; the record with the target id is back to its original boolean
value under the absent-means-false reading, with lastModified set by the
second application. -/
def DoubleToggledBy (i : String) (now' : Int) (v u : Visit) : Prop :=
  (v.id ≠ i → u = v) ∧
  (v.id = i →
    u.isRevisitSuccessful = some (v.isRevisitSuccessful.getD false) ∧
    u.lastModified = some now')

/-- C9: toggleRevisitSuccess flips the matching record's flag (absent
defaults to false) and sets lastModified; toggling an absent id leaves
the collection unchanged; toggling twice restores the original boolean
value while lastModified is updated by each application. -/
theorem toggle_spec (visits : List Visit) (i : String) (now now' : Int) :
    List.Forall₂ (ToggledBy i now) visits (handleToggleRevisitSuccess visits i now) ∧
    ((∀ v ∈ visits, v.id ≠ i) → handleToggleRevisitSuccess visits i now = visits) ∧
    List.Forall₂ (DoubleToggledBy i now') visits
      (handleToggleRevisitSuccess (handleToggleRevisitSuccess visits i now) i now') := by
  refine ⟨?_, ?_, ?_⟩
  · unfold handleToggleRevisitSuccess
    rw [List.forall₂_map_right_iff, List.forall₂_same]
    intro v hv
    by_cases h : v.id = i <;> simp [ToggledBy, h]
  · intro habs
    unfold handleToggleRevisitSuccess
    have : ∀ v ∈ visits,
        (if v.id = i then
          { v with isRevisitSuccessful := some (!(v.isRevisitSuccessful.getD false))
                   lastModified := some now }
        else v) = v := by
      intro v hv
      simp [habs v hv]
    calc visits.map _ = visits.map id := List.map_congr_left (by simpa using this)
      _ = visits := List.map_id visits
  · unfold handleToggleRevisitSuccess
    rw [List.map_map, List.forall₂_map_right_iff, List.forall₂_same]
    intro v hv
    by_cases h : v.id = i <;> simp [DoubleToggledBy, h, Function.comp]

/-- Witness for C9 at concrete inputs: a record with an absent flag is
toggled (absent reads as false), an absent id is a no-op, and a double
toggle restores the original boolean value. -/
theorem toggle_spec_witness :
    List.Forall₂ (ToggledBy "a" 4)
      [{ id := "a", businessName := "Acme", timestamp := 0 }]
      (handleToggleRevisitSuccess
        [{ id := "a", businessName := "Acme", timestamp := 0 }] "a" 4) ∧
    handleToggleRevisitSuccess
        [{ id := "a", businessName := "Acme", timestamp := 0 }] "z" 4 =
      [{ id := "a", businessName := "Acme", timestamp := 0 }] ∧
    List.Forall₂ (DoubleToggledBy "a" 9)
      [{ id := "a", businessName := "Acme", timestamp := 0 }]
      (handleToggleRevisitSuccess
        (handleToggleRevisitSuccess
          [{ id := "a", businessName := "Acme", timestamp := 0 }] "a" 4) "a" 9) :=
  ⟨(toggle_spec [{ id := "a", businessName := "Acme", timestamp := 0 }] "a" 4 9).1,
   (toggle_spec [{ id := "a", businessName := "Acme", timestamp := 0 }] "z" 4 9).2.1
     (by decide),
   (toggle_spec [{ id := "a", businessName := "Acme", timestamp := 0 }] "a" 4 9).2.2⟩

/-- The value space of JSON.parse, for the import document.  Numbers are
carried as integers: the import flow never computes with them, it only
tests truthiness and stores them. -/
inductive Json where
  | null : Json
  | bool (b : Bool) : Json
  | num (n : Int) : Json
  | str (s : String) : Json
  | arr (elems : List Json) : Json
  | obj (fields : List (String × Json)) : Json

/-- JavaScript property access v.k on a parsed value: a key lookup on an
object, undefined (none) on everything else. -/
def getField : Json → String → Option Json
  | .obj fs, k => fs.lookup k
  | _, _ => none

/-- JavaScript truthiness of a possibly-undefined value: undefined, null,
false, 0 and the empty string are falsy; every object, array, non-zero
number, non-empty string and true are truthy. -/
def jsTruthy : Option Json → Bool
  | none => false
  | some .null => false
  | some (.bool b) => b
  | some (.num n) => n != 0
  | some (.str s) => s != ""
  | some (.arr _) => true
  | some (.obj _) => true

/-- The element check of handleFileChange:
v.id && v.businessName && v.timestamp. -/
def validElem (e : Json) : Bool :=
  jsTruthy (getField e "id") && jsTruthy (getField e "businessName") &&
    jsTruthy (getField e "timestamp")

/-- The validation of handleFileChange:
Array.isArray(importedVisits) && importedVisits.every(validElem),
returning the element list on success. -/
def validateImport (doc : Json) : Option (List Json) :=
  match doc with
  | .arr l => if l.all validElem then some l else none
  | _ => none

/-- Outcome of the import flow: a surfaced ImportValidationError, a
declined confirmation, or a wholesale replacement. -/
inductive ImportResult where
  | invalid : ImportResult
  | declined : ImportResult
  | replaced (records : List Json) : ImportResult

/-- handleFileChange of VisitList.tsx after JSON.parse succeeded: validate
the document, then ask window.confirm with the existing and incoming
record counts, and replace the collection only on a yes.  The confirm
dialog is modelled as a decision function of the two surfaced counts.
The current collection is carried as parsed JSON values, which is what
the repository holds after any import. -/
def handleFileChange (current : List Json) (doc : Json)
    (confirm : Nat → Nat → Bool) : ImportResult :=
  match validateImport doc with
  | none => .invalid
  | some l => if confirm current.length l.length then .replaced l else .declined

/-- The collection after the import flow ran. -/
def visitsAfterImport (current : List Json) (doc : Json)
    (confirm : Nat → Nat → Bool) : List Json :=
  match handleFileChange current doc confirm with
  | .replaced l => l
  | _ => current

theorem validateImport_arr (l : List Json) :
    validateImport (.arr l) = if l.all validElem then some l else none := rfl

theorem validateImport_not_arr (doc : Json) (h : ∀ l : List Json, doc ≠ .arr l) :
    validateImport doc = none := by
  cases doc
  case arr l => exact absurd rfl (h l)
  all_goals rfl

theorem handleFileChange_of_validate_none (current : List Json) (doc : Json)
    (confirm : Nat → Nat → Bool) (hv : validateImport doc = none) :
    handleFileChange current doc confirm = .invalid := by
  unfold handleFileChange
  rw [hv]

theorem handleFileChange_of_validate_some (current : List Json) (doc : Json)
    (confirm : Nat → Nat → Bool) (l : List Json) (hv : validateImport doc = some l) :
    handleFileChange current doc confirm =
      if confirm current.length l.length then .replaced l else .declined := by
  unfold handleFileChange
  rw [hv]

/-- C7: the import fails (and the collection is untouched) exactly when
the document is not an array or some element fails the id/businessName/
timestamp truthiness check; a valid document replaces the repository
wholesale only after a confirmation that receives the existing and
incoming record counts, and declining leaves the collection unchanged. -/
theorem import_spec (current : List Json) (doc : Json) (confirm : Nat → Nat → Bool) :
    (handleFileChange current doc confirm = .invalid ↔
      (∀ l : List Json, doc ≠ .arr l) ∨
      (∃ l : List Json, doc = .arr l ∧ ∃ e ∈ l, ¬(validElem e = true))) ∧
    (handleFileChange current doc confirm = .invalid →
      visitsAfterImport current doc confirm = current) ∧
    (∀ l : List Json, doc = .arr l → (∀ e ∈ l, validElem e = true) →
      (confirm current.length l.length = true →
        handleFileChange current doc confirm = .replaced l ∧
        visitsAfterImport current doc confirm = l) ∧
      (confirm current.length l.length = false →
        handleFileChange current doc confirm = .declined ∧
        visitsAfterImport current doc confirm = current)) := by
  refine ⟨?_, ?_, ?_⟩
  · cases doc with
    | arr l =>
      by_cases hall : l.all validElem = true
      · have hv : validateImport (.arr l) = some l := by
          rw [validateImport_arr, if_pos hall]
        rw [handleFileChange_of_validate_some current _ confirm l hv]
        constructor
        · intro h
          by_cases hc : confirm current.length l.length = true <;> simp [hc] at h
        · rintro (h | ⟨l', hl', e, he, hbad⟩)
          · exact absurd rfl (h l)
          · cases hl'
            exact absurd ((List.all_eq_true.mp hall) e he) hbad
      · have hv : validateImport (.arr l) = none := by
          rw [validateImport_arr, if_neg hall]
        rw [handleFileChange_of_validate_none current _ confirm hv]
        constructor
        · intro _
          refine Or.inr ⟨l, rfl, ?_⟩
          rw [List.all_eq_true] at hall
          push_neg at hall
          obtain ⟨e, he, hbad⟩ := hall
          exact ⟨e, he, hbad⟩
        · intro _
          rfl
    | null =>
      rw [handleFileChange_of_validate_none current _ confirm (validateImport_not_arr _ (by intro l h; cases h))]
      simp
    | bool b =>
      rw [handleFileChange_of_validate_none current _ confirm (validateImport_not_arr _ (by intro l h; cases h))]
      simp
    | num n =>
      rw [handleFileChange_of_validate_none current _ confirm (validateImport_not_arr _ (by intro l h; cases h))]
      simp
    | str s =>
      rw [handleFileChange_of_validate_none current _ confirm (validateImport_not_arr _ (by intro l h; cases h))]
      simp
    | obj fs =>
      rw [handleFileChange_of_validate_none current _ confirm (validateImport_not_arr _ (by intro l h; cases h))]
      simp
  · intro h
    unfold visitsAfterImport
    rw [h]
  · intro l hdoc hall
    subst hdoc
    have hv : validateImport (.arr l) = some l := by
      rw [validateImport_arr, if_pos (List.all_eq_true.mpr hall)]
    constructor
    · intro hc
      have hr : handleFileChange current (.arr l) confirm = .replaced l := by
        rw [handleFileChange_of_validate_some current _ confirm l hv, if_pos hc]
      exact ⟨hr, by unfold visitsAfterImport; rw [hr]⟩
    · intro hc
      have hr : handleFileChange current (.arr l) confirm = .declined := by
        rw [handleFileChange_of_validate_some current _ confirm l hv, hc]
        rfl
      exact ⟨hr, by unfold visitsAfterImport; rw [hr]⟩

/-- Witness for C7 at concrete inputs: a document with one element missing
businessName is rejected with the collection unchanged; a valid one-record
document replaces a one-record collection when confirmed and leaves it
unchanged when declined. -/
theorem import_spec_witness :
    handleFileChange [Json.obj [("id", Json.str "a")]]
        (Json.arr [Json.obj [("id", Json.str "b"), ("timestamp", Json.str "t")]])
        (fun _ _ => true) = .invalid ∧
    visitsAfterImport [Json.obj [("id", Json.str "a")]]
        (Json.arr [Json.obj [("id", Json.str "b"), ("timestamp", Json.str "t")]])
        (fun _ _ => true) = [Json.obj [("id", Json.str "a")]] ∧
    handleFileChange [Json.obj [("id", Json.str "a")]]
        (Json.arr [Json.obj [("id", Json.str "b"), ("businessName", Json.str "B"),
          ("timestamp", Json.str "t")]])
        (fun _ _ => true) =
      .replaced [Json.obj [("id", Json.str "b"), ("businessName", Json.str "B"),
        ("timestamp", Json.str "t")]] ∧
    visitsAfterImport [Json.obj [("id", Json.str "a")]]
        (Json.arr [Json.obj [("id", Json.str "b"), ("businessName", Json.str "B"),
          ("timestamp", Json.str "t")]])
        (fun _ _ => false) = [Json.obj [("id", Json.str "a")]] := by
  have hbad := import_spec [Json.obj [("id", Json.str "a")]]
    (Json.arr [Json.obj [("id", Json.str "b"), ("timestamp", Json.str "t")]])
    (fun _ _ => true)
  have hinv : handleFileChange [Json.obj [("id", Json.str "a")]]
      (Json.arr [Json.obj [("id", Json.str "b"), ("timestamp", Json.str "t")]])
      (fun _ _ => true) = .invalid := by
    refine hbad.1.mpr (Or.inr ⟨_, rfl, Json.obj [("id", Json.str "b"),
      ("timestamp", Json.str "t")], List.mem_singleton.mpr rfl, ?_⟩)
    intro h
    simp [validElem, getField, jsTruthy, List.lookup] at h
  have hgood := import_spec [Json.obj [("id", Json.str "a")]]
    (Json.arr [Json.obj [("id", Json.str "b"), ("businessName", Json.str "B"),
      ("timestamp", Json.str "t")]]) (fun _ _ => true)
  have hgood2 := import_spec [Json.obj [("id", Json.str "a")]]
    (Json.arr [Json.obj [("id", Json.str "b"), ("businessName", Json.str "B"),
      ("timestamp", Json.str "t")]]) (fun _ _ => false)
  have hall : ∀ e ∈ [Json.obj [("id", Json.str "b"), ("businessName", Json.str "B"),
      ("timestamp", Json.str "t")]], validElem e = true := by
    intro e he
    rw [List.mem_singleton] at he
    subst he
    rfl
  exact ⟨hinv, hbad.2.1 hinv,
    ((hgood.2.2 _ rfl hall).1 rfl).1,
    ((hgood2.2.2 _ rfl hall).2 rfl).2⟩

/-- C10 amended-free statement: the element validation looks only at the
truthiness of the id, businessName and timestamp fields, so any array all
of whose elements pass those three checks is accepted and stored
verbatim, whatever else the elements contain or omit. -/
theorem import_shape_spec (current : List Json) (l : List Json) :
    ((∀ e ∈ l, validElem e = true) →
      ∀ confirm : Nat → Nat → Bool, confirm current.length l.length = true →
        handleFileChange current (.arr l) confirm = .replaced l ∧
        visitsAfterImport current (.arr l) confirm = l) ∧
    (∀ e e' : Json, getField e "id" = getField e' "id" →
      getField e "businessName" = getField e' "businessName" →
      getField e "timestamp" = getField e' "timestamp" →
      validElem e = validElem e') := by
  constructor
  · intro hall confirm hc
    exact (import_spec current (.arr l) confirm).2.2 l rfl hall |>.1 hc
  · intro e e' h1 h2 h3
    unfold validElem
    rw [h1, h2, h3]

/-- Witness for C10: a one-element array whose element has a numeric id, a
boolean businessName, a string timestamp, no visitType and an extra junk
field is accepted and stored verbatim. -/
theorem import_shape_spec_witness :
    handleFileChange []
        (Json.arr [Json.obj [("id", Json.num 7), ("businessName", Json.bool true),
          ("timestamp", Json.str "soon"), ("junk", Json.arr [Json.null])]])
        (fun _ _ => true) =
      .replaced [Json.obj [("id", Json.num 7), ("businessName", Json.bool true),
        ("timestamp", Json.str "soon"), ("junk", Json.arr [Json.null])]] := by
  have h := (import_shape_spec []
    [Json.obj [("id", Json.num 7), ("businessName", Json.bool true),
      ("timestamp", Json.str "soon"), ("junk", Json.arr [Json.null])]]).1
  refine (h ?_ (fun _ _ => true) rfl).1
  intro e he
  rw [List.mem_singleton] at he
  subst he
  rfl

inductive View where
  | list
  | detail
  | form
deriving DecidableEq, Repr

/-- The state of the App component that drives navigation: the collection,
the active view, the selected visit id, and the editing flag. -/
structure AppState where
  visits : List Visit
  view : View
  selectedVisitId : Option String
  isEditing : Bool
deriving DecidableEq, Repr

/-- The selectedVisit memo: null without a selection, otherwise the first
record with the selected id, or null when none matches. -/
def selectedVisit (s : AppState) : Option Visit :=
  match s.selectedVisitId with
  | none => none
  | some i => s.visits.find? (fun v => v.id == i)

/-- What renderContent produces: a detail page of a record, the form with
an optional initial record, the list, or no content at all (the source
renders selectedVisit && (...), which is nothing when the record is
missing). -/
inductive Rendered where
  | detailView (visit : Visit) : Rendered
  | formView (initialVisit : Option Visit) : Rendered
  | listView (visits : List Visit) : Rendered
  | nothing : Rendered
deriving DecidableEq, Repr

/-- renderContent of the App component. -/
def renderContent (s : AppState) : Rendered :=
  match s.view with
  | .detail =>
    match selectedVisit s with
    | some v => .detailView v
    | none => .nothing
  | .form => .formView (if s.isEditing then selectedVisit s else none)
  | .list => .listView s.visits

/-- handleGoBack of the App component. -/
def handleGoBack (s : AppState) : AppState :=
  if s.view = .detail then
    { s with view := .list, selectedVisitId := none }
  else if s.view = .form then
    if s.isEditing ∧ (selectedVisit s).isSome then
      { s with view := .detail, isEditing := false }
    else
      { s with view := .list, isEditing := false }
  else s

/-- The state change of handleDeleteVisit when the dialog is confirmed:
filter the collection, and fall back to the list when the deleted id was
the selected one. -/
def applyDelete (s : AppState) (i : String) : AppState :=
  if s.selectedVisitId = some i then
    { s with visits := handleDeleteVisit s.visits i, view := .list,
             selectedVisitId := none }
  else
    { s with visits := handleDeleteVisit s.visits i }

/-- One interaction step of the App component.  Guards record where each
handler is reachable from in the UI (items of the rendered list exist in
the collection; detail buttons exist only when a record is shown).
outOfBandDelete is the environment step of the claim: the persisted
collection loses a record without any navigation change (for example a
deletion from another browser tab sharing the storage slot). -/
inductive Step : AppState → AppState → Prop where
  | selectVisit (s : AppState) (i : String) (hview : s.view = .list)
      (hmem : ∃ v ∈ s.visits, v.id = i) :
      Step s { s with view := .detail, selectedVisitId := some i }
  | goBack (s : AppState) : Step s (handleGoBack s)
  | newVisit (s : AppState) (hview : s.view = .list) :
      Step s { s with selectedVisitId := none, isEditing := false, view := .form }
  | editVisit (s : AppState) (hview : s.view = .detail)
      (hsel : (selectedVisit s).isSome) :
      Step s { s with isEditing := true, view := .form }
  | editVisitFromList (s : AppState) (i : String) (hview : s.view = .list)
      (hmem : ∃ v ∈ s.visits, v.id = i) :
      Step s { s with selectedVisitId := some i, isEditing := true, view := .form }
  | deleteVisit (s : AppState) (i : String) : Step s (applyDelete s i)
  | saveVisit (s : AppState) (draft : VisitDraft) (newId : String) (now : Int)
      (hview : s.view = .form) (hname : draft.businessName ≠ "") :
      Step s { s with visits := handleSaveVisit s.visits draft newId now,
                      view := .list, selectedVisitId := none, isEditing := false }
  | toggleRevisit (s : AppState) (i : String) (now : Int) :
      Step s { s with visits := handleToggleRevisitSuccess s.visits i now }
  | outOfBandDelete (s : AppState) (i : String) :
      Step s { s with visits := handleDeleteVisit s.visits i }

/-- States reachable from a start on the list view over a stored
collection. -/
def ReachableFrom (visits : List Visit) (s : AppState) : Prop :=
  Relation.ReflTransGen Step
    { visits := visits, view := .list, selectedVisitId := none, isEditing := false } s

/-- C4 counterexample: starting on the list over the single record "x",
select it (Detail of "x"), then the record is deleted out-of-band.  The
reached state still has view Detail with selection "x" and an empty
collection, and renderContent produces no content at all instead of the
List view: the controller does not fall back to List and is left showing
nothing. -/
theorem nav_fallback_cex :
    ReachableFrom [{ id := "x", businessName := "Acme", timestamp := 0 }]
      { visits := [], view := .detail, selectedVisitId := some "x",
        isEditing := false } ∧
    renderContent
        { visits := [], view := .detail, selectedVisitId := some "x",
          isEditing := false } ≠
      Rendered.listView [] ∧
    renderContent
        { visits := [], view := .detail, selectedVisitId := some "x",
          isEditing := false } = Rendered.nothing := by
  refine ⟨?_, by decide, rfl⟩
  have h1 : Step
      { visits := [{ id := "x", businessName := "Acme", timestamp := 0 }],
        view := .list, selectedVisitId := none, isEditing := false }
      { visits := [{ id := "x", businessName := "Acme", timestamp := 0 }],
        view := .detail, selectedVisitId := some "x", isEditing := false } :=
    Step.selectVisit _ "x" rfl ⟨_, List.mem_singleton.mpr rfl, rfl⟩
  have h2 : Step
      { visits := [{ id := "x", businessName := "Acme", timestamp := 0 }],
        view := .detail, selectedVisitId := some "x", isEditing := false }
      { visits := [], view := .detail, selectedVisitId := some "x",
        isEditing := false } := by
    have := Step.outOfBandDelete
      { visits := [{ id := "x", businessName := "Acme", timestamp := 0 }],
        view := .detail, selectedVisitId := some "x", isEditing := false } "x"
    simpa [handleDeleteVisit] using this
  exact Relation.ReflTransGen.head h1 (Relation.ReflTransGen.head h2 .refl)

/-- C4 amended: when the selected record is missing from the collection,
the controller never renders a missing record; but instead of falling
back to the List view it renders nothing at all on the Detail view, and
renders the form with no initial record (a blank create form) on the
Form view. -/
theorem nav_missing_record (s : AppState) (hsel : selectedVisit s = none) :
    (s.view = .detail → renderContent s = .nothing) ∧
    (s.view = .form → renderContent s = .formView none) ∧
    (∀ v : Visit, renderContent s ≠ .detailView v) := by
  refine ⟨?_, ?_, ?_⟩
  · intro hview
    unfold renderContent
    rw [hview, hsel]
  · intro hview
    unfold renderContent
    rw [hview]
    by_cases h : s.isEditing <;> simp [h, hsel]
  · intro v
    unfold renderContent
    cases hview : s.view with
    | list => simp
    | form => simp
    | detail =>
      rw [hsel]
      simp

/-- Witness for the amended C4 at the concrete dangling state of the
counterexample path. -/
theorem nav_missing_record_witness :
    renderContent
        { visits := [], view := .detail, selectedVisitId := some "x",
          isEditing := false } = Rendered.nothing ∧
    renderContent
        { visits := [], view := .form, selectedVisitId := some "x",
          isEditing := true } = Rendered.formView none :=
  ⟨(nav_missing_record
      { visits := [], view := .detail, selectedVisitId := some "x",
        isEditing := false } rfl).1 rfl,
   (nav_missing_record
      { visits := [], view := .form, selectedVisitId := some "x",
        isEditing := true } rfl).2.1 rfl⟩
